import Mathlib

/-!
Shallow embedding of the Iris unit-testing notebooks: a simple train/test
pipeline (`SimplePipeline`), a variant with feature standardisation
(`PipelineWithDataEngineering`), and the accuracy checks performed by the
notebook test classes.

Feature values are modelled as rationals.  The two external ingredients that
the notebooks take from scikit-learn are modelled as parameters:
the seed-42 row permutation used by `train_test_split` is a `shuffle`
function, and the square root used by `StandardScaler` is a function
`sqrtQ : ℚ → ℚ` constrained (nonnegative, squares to its argument) exactly
where a statement needs it.  The classifier produced by `train` is an
abstract `algorithm` parameter, since the behaviour of logistic-regression
fitting is outside the scope of the embedded pipeline code.
-/

/-- A row of the feature matrix: one rational value per feature. -/
abbrev Row := List ℚ

/-- A labelled tabular dataset: feature rows plus integer class labels. -/
structure IrisDataset where
  X : List Row
  y : List ℤ

/-- Number of test rows selected by `train_test_split` for a fractional
`test_size`: the ceiling of `test_size * n`. -/
def nTestRows (testSize : ℚ) (n : ℕ) : ℕ := (Int.ceil (testSize * (n : ℚ))).toNat

/-- The four values returned by `train_test_split`. -/
structure SplitData where
  X_train : List Row
  X_test : List Row
  y_train : List ℤ
  y_test : List ℤ

/-- `train_test_split(X, y, test_size=ts, random_state=42)`: permute the rows
with the seed-determined `shuffle`, take the first `⌈ts * n⌉` permuted rows as
the test set and the remaining rows as the training set. -/
def trainTestSplit (shuffle : List (Row × ℤ) → List (Row × ℤ))
    (X : List Row) (y : List ℤ) (testSize : ℚ) : SplitData :=
  let p := shuffle (X.zip y)
  let nt := nTestRows testSize p.length
  { X_train := (p.drop nt).map Prod.fst
    X_test := (p.take nt).map Prod.fst
    y_train := (p.drop nt).map Prod.snd
    y_test := (p.take nt).map Prod.snd }

/-- Arithmetic mean of a list of rationals (`numpy`-style, 0 on `[]`). -/
def listMean (xs : List ℚ) : ℚ := xs.sum / (xs.length : ℚ)

/-- Population variance (`ddof = 0`, as used by `StandardScaler` and by
`numpy.std`). -/
def listVar (xs : List ℚ) : ℚ := listMean (xs.map (fun x => (x - listMean xs) ^ 2))

/-- Number of positions where the prediction equals the true label. -/
def countCorrect (pred truth : List ℤ) : ℕ :=
  (List.zipWith (fun a b => if a = b then (1 : ℕ) else 0) pred truth).sum

/-- `sklearn.metrics.accuracy_score`: fraction of correct predictions. -/
def accuracy (pred truth : List ℤ) : ℚ :=
  (countCorrect pred truth : ℚ) / (truth.length : ℚ)

/-- The benchmark predictor of the test class: the constant label `1`,
one prediction per test row (`[1.0] * len(y_test)`). -/
def benchmark_predictions (ys : List ℤ) : List ℤ := List.replicate ys.length 1

/-- Number of occurrences of a most common label in `ys`. -/
def mostCommonCount (ys : List ℤ) : ℕ := (ys.map (fun v => ys.count v)).foldr max 0

/-- State of `SimplePipeline`: the stored split and the optional fitted
classifier.  The classifier maps a feature matrix to predicted labels. -/
structure SimplePipeline where
  X_train : List Row
  X_test : List Row
  y_train : List ℤ
  y_test : List ℤ
  model : Option (List Row → List ℤ)

namespace SimplePipeline

/-- `load_dataset`: split the dataset and store the four pieces, leaving the
model untouched. -/
def load_dataset (shuffle : List (Row × ℤ) → List (Row × ℤ))
    (d : IrisDataset) (s : SimplePipeline) : SimplePipeline :=
  let sp := trainTestSplit shuffle d.X d.y (65 / 100)
  { s with X_train := sp.X_train, X_test := sp.X_test,
           y_train := sp.y_train, y_test := sp.y_test }

/-- `__init__`: start from empty fields and call `load_dataset`. -/
def init (shuffle : List (Row × ℤ) → List (Row × ℤ)) (d : IrisDataset) :
    SimplePipeline :=
  load_dataset shuffle d
    { X_train := [], X_test := [], y_train := [], y_test := [], model := none }

/-- `train`: fit the classifier on the stored training split. -/
def train (algorithm : List Row → List ℤ → (List Row → List ℤ))
    (s : SimplePipeline) : SimplePipeline :=
  { s with model := some (algorithm s.X_train s.y_train) }

/-- `predict`: apply the fitted model to the given rows (`none` before
training, where the Python code would raise). -/
def predict (s : SimplePipeline) (input_data : List Row) : Option (List ℤ) :=
  s.model.map (fun m => m input_data)

/-- `get_accuracy`: `model.score(X_test, y_test)`, the accuracy of the
model's predictions on the stored test split. -/
def get_accuracy (s : SimplePipeline) : Option ℚ :=
  s.model.map (fun m => accuracy (m s.X_test) s.y_test)

/-- `run_pipeline`: reload the dataset, then train. -/
def run_pipeline (shuffle : List (Row × ℤ) → List (Row × ℤ)) (d : IrisDataset)
    (algorithm : List Row → List ℤ → (List Row → List ℤ))
    (s : SimplePipeline) : SimplePipeline :=
  train algorithm (load_dataset shuffle d s)

end SimplePipeline

/-- Feature column `j` of a row-major matrix. -/
def col (j : ℕ) (m : List Row) : List ℚ := m.map (fun r => r.getD j 0)

/-- Number of features, read off the first row as scikit-learn does. -/
def numFeatures (m : List Row) : ℕ := (m.headD []).length

/-- `StandardScaler` scale for one feature: the square root of the variance,
with zero variance replaced by scale 1. -/
def scaleOf (sqrtQ : ℚ → ℚ) (v : ℚ) : ℚ := if v = 0 then 1 else sqrtQ v

/-- `StandardScaler.fit`: per-feature `(mean, scale)` computed from the given
training matrix. -/
def scalerFit (sqrtQ : ℚ → ℚ) (m : List Row) : List (ℚ × ℚ) :=
  (List.range (numFeatures m)).map
    (fun j => (listMean (col j m), scaleOf sqrtQ (listVar (col j m))))

/-- Standardise one feature column with fitted parameters `(mu, sigma)`. -/
def scaleCol (mu sigma : ℚ) (xs : List ℚ) : List ℚ :=
  xs.map (fun x => (x - mu) / sigma)

/-- Standardise one row, feature by feature, with the fitted parameters. -/
def scaleRow (ps : List (ℚ × ℚ)) (r : Row) : Row :=
  List.zipWith (fun p x => (x - p.1) / p.2) ps r

/-- `StandardScaler.transform` on a whole matrix. -/
def scalerTransform (ps : List (ℚ × ℚ)) (m : List Row) : List Row :=
  m.map (scaleRow ps)

/-- State of `PipelineWithDataEngineering`: the inherited state plus the
fitted scaler parameters. -/
structure PipelineWithDataEngineering extends SimplePipeline where
  scaler : List (ℚ × ℚ)

namespace PipelineWithDataEngineering

/-- `__init__`: run the inherited constructor, then fit the scaler once on
the training split it produced. -/
def construct (sqrtQ : ℚ → ℚ) (shuffle : List (Row × ℤ) → List (Row × ℤ))
    (d : IrisDataset) : PipelineWithDataEngineering :=
  let s := SimplePipeline.init shuffle d
  { toSimplePipeline := s, scaler := scalerFit sqrtQ s.X_train }

/-- Inherited `load_dataset`: replaces the stored split, scaler untouched. -/
def load_dataset (shuffle : List (Row × ℤ) → List (Row × ℤ)) (d : IrisDataset)
    (p : PipelineWithDataEngineering) : PipelineWithDataEngineering :=
  { p with toSimplePipeline := SimplePipeline.load_dataset shuffle d p.toSimplePipeline }

/-- `apply_scaler`: overwrite the stored train and test matrices with their
transform under the already-fitted parameters. -/
def apply_scaler (p : PipelineWithDataEngineering) : PipelineWithDataEngineering :=
  { p with X_train := scalerTransform p.scaler p.X_train,
           X_test := scalerTransform p.scaler p.X_test }

/-- Inherited `train`: fit the classifier on the stored training split. -/
def train (algorithm : List Row → List ℤ → (List Row → List ℤ))
    (p : PipelineWithDataEngineering) : PipelineWithDataEngineering :=
  { p with model := some (algorithm p.X_train p.y_train) }

/-- Overridden `predict`: transform the inputs with the fitted scaler, then
apply the model. -/
def predict (p : PipelineWithDataEngineering) (input_data : List Row) :
    Option (List ℤ) :=
  p.model.map (fun m => m (scalerTransform p.scaler input_data))

/-- Overridden `run_pipeline`: reload, scale, then train. -/
def run_pipeline (shuffle : List (Row × ℤ) → List (Row × ℤ)) (d : IrisDataset)
    (algorithm : List Row → List ℤ → (List Row → List ℤ))
    (p : PipelineWithDataEngineering) : PipelineWithDataEngineering :=
  train algorithm (apply_scaler (load_dataset shuffle d p))

/-- The state-mutating methods callable on a constructed pipeline. -/
inductive Method where
  | loadData : Method
  | scaleData : Method
  | fitModel : Method
  | runAll : Method

/-- One method call as a state transition. -/
def step (shuffle : List (Row × ℤ) → List (Row × ℤ)) (d : IrisDataset)
    (algorithm : List Row → List ℤ → (List Row → List ℤ)) :
    Method → PipelineWithDataEngineering → PipelineWithDataEngineering
  | Method.loadData, p => load_dataset shuffle d p
  | Method.scaleData, p => apply_scaler p
  | Method.fitModel, p => train algorithm p
  | Method.runAll, p => run_pipeline shuffle d algorithm p

/-- A sequence of method calls, applied left to right. -/
def runMethods (shuffle : List (Row × ℤ) → List (Row × ℤ)) (d : IrisDataset)
    (algorithm : List Row → List ℤ → (List Row → List ℤ))
    (ms : List Method) (p : PipelineWithDataEngineering) :
    PipelineWithDataEngineering :=
  ms.foldl (fun q m => step shuffle d algorithm m q) p

end PipelineWithDataEngineering

/-- The assertion of `test_accuracy_compared_to_previous_version`: the newer
pipeline's accuracy is at least the older one's. -/
def accuracyComparedAssertion (v1_accuracy v2_accuracy : ℚ) : Prop :=
  v2_accuracy ≥ v1_accuracy

/-- `SimplePipeline` accuracy recorded by the notebook's executed run
(`0.9693877551020408`, i.e. 95 of the 98 test rows correct). -/
def recorded_v1_accuracy : ℚ := 95 / 98

/-- `PipelineWithDataEngineering` accuracy recorded by the notebook's
executed run (`0.9591836734693877`, i.e. 94 of the 98 test rows correct). -/
def recorded_v2_accuracy : ℚ := 94 / 98

/-- The pipeline state exercised by `TestIrisDataEngineering`: `setUp`
constructs the pipeline and calls `load_dataset`, and each test then calls
`apply_scaler`. -/
def dataEngineeringTestState (sqrtQ : ℚ → ℚ)
    (shuffle : List (Row × ℤ) → List (Row × ℤ)) (d : IrisDataset) :
    PipelineWithDataEngineering :=
  PipelineWithDataEngineering.apply_scaler
    (PipelineWithDataEngineering.load_dataset shuffle d
      (PipelineWithDataEngineering.construct sqrtQ shuffle d))

/-- The identity permutation, a concrete stand-in for a seed shuffle. -/
def idShuffle : List (Row × ℤ) → List (Row × ℤ) := fun l => l

/-- A square-root stand-in that is correct on the value `1`. -/
def unitSqrt : ℚ → ℚ := fun _ => 1

/-- A 6-row, 4-feature dataset whose seed-free split leaves the last two rows
as the training set, with each training column of mean 1 and variance 1. -/
def smallDataset : IrisDataset :=
  { X := [[9, 9, 9, 9], [8, 8, 8, 8], [7, 7, 7, 7], [6, 6, 6, 6],
          [0, 0, 0, 0], [2, 2, 2, 2]],
    y := [0, 1, 2, 0, 1, 2] }

/-- A 150-row, 4-feature dataset of identical rows. -/
def uniformDataset : IrisDataset :=
  { X := List.replicate 150 [0, 0, 0, 0], y := List.replicate 150 0 }

/-- 98 test labels with 32 rows of class 1, matching the recorded benchmark
accuracy 32/98 of the executed notebook run. -/
def scenarioLabels : List ℤ := List.replicate 32 1 ++ List.replicate 66 0

/-- 98 predictions of which exactly 95 agree with `scenarioLabels`, matching
the recorded model accuracy 95/98. -/
def scenarioPreds : List ℤ :=
  List.replicate 32 1 ++ List.replicate 63 0 ++ List.replicate 3 5

/-- A trained pipeline whose stored test split and model reproduce the
recorded accuracies of the executed notebook run. -/
def scenarioPipeline : SimplePipeline :=
  { X_train := [], X_test := List.replicate 98 [], y_train := [],
    y_test := scenarioLabels, model := some (fun _ => scenarioPreds) }

/-- 98 test labels consistent with the recorded run (32 rows of class 1)
in which the most common class is class 0, with 33 rows. -/
def testLabelsScenario : List ℤ :=
  List.replicate 33 0 ++ List.replicate 32 1 ++ List.replicate 33 2

/-! ### List statistics lemmas -/

theorem listSum_map_div (xs : List ℚ) (c : ℚ) :
    (xs.map (fun x => x / c)).sum = xs.sum / c := by
  induction xs with
  | nil => simp
  | cons a l ih => simp [ih, add_div]

theorem listSum_map_sub (xs : List ℚ) (m : ℚ) :
    (xs.map (fun x => x - m)).sum = xs.sum - (xs.length : ℚ) * m := by
  induction xs with
  | nil => simp
  | cons a l ih =>
    simp only [List.map_cons, List.sum_cons, ih, List.length_cons]
    push_cast
    ring

theorem listMean_scaleCol (mu sigma : ℚ) (xs : List ℚ) (h : xs ≠ []) :
    listMean (scaleCol mu sigma xs) = (listMean xs - mu) / sigma := by
  have hn : (xs.length : ℚ) ≠ 0 := by
    simpa using fun hc => h (List.length_eq_zero.mp hc)
  have hmap : scaleCol mu sigma xs
      = (xs.map (fun x => x - mu)).map (fun x => x / sigma) := by
    simp [scaleCol, List.map_map, Function.comp]
  unfold listMean
  rw [hmap, listSum_map_div, listSum_map_sub, List.length_map, List.length_map]
  rw [div_div, mul_comm sigma (xs.length : ℚ), ← div_div]
  congr 1
  field_simp

theorem listVar_scaleCol (mu sigma : ℚ) (xs : List ℚ) (h : xs ≠ []) :
    listVar (scaleCol mu sigma xs) = listVar xs / sigma ^ 2 := by
  have hm := listMean_scaleCol mu sigma xs h
  unfold listVar
  rw [hm]
  have hmap : (scaleCol mu sigma xs).map
        (fun y => (y - (listMean xs - mu) / sigma) ^ 2)
      = (xs.map (fun x => (x - listMean xs) ^ 2)).map (fun z => z / sigma ^ 2) := by
    unfold scaleCol
    rw [List.map_map, List.map_map]
    apply List.map_congr_left
    intro x _
    simp only [Function.comp_apply]
    rw [div_sub_div_same, show x - mu - (listMean xs - mu) = x - listMean xs by ring,
      div_pow]
  rw [hmap]
  unfold listMean
  rw [listSum_map_div, List.length_map, div_div, div_div, mul_comm]

theorem listMean_standardised (sigma : ℚ) (xs : List ℚ) (h : xs ≠ []) :
    listMean (scaleCol (listMean xs) sigma xs) = 0 := by
  rw [listMean_scaleCol _ _ _ h, sub_self, zero_div]

theorem listVar_standardised (sigma : ℚ) (xs : List ℚ) (h : xs ≠ [])
    (hv : listVar xs ≠ 0) (hs : sigma ^ 2 = listVar xs) :
    listVar (scaleCol (listMean xs) sigma xs) = 1 := by
  rw [listVar_scaleCol _ _ _ h, hs, div_self hv]

/-! ### Column and scaler lemmas -/

theorem getD_zipWith {α β γ : Type} (f : α → β → γ) (ps : List α) (r : List β)
    (j : ℕ) (hp : j < ps.length) (hr : j < r.length) (da : α) (db : β) (dc : γ) :
    (List.zipWith f ps r).getD j dc = f (ps.getD j da) (r.getD j db) := by
  induction ps generalizing r j with
  | nil => simp at hp
  | cons p ps ih =>
    cases r with
    | nil => simp at hr
    | cons x r =>
      cases j with
      | zero => rfl
      | succ j =>
        simp only [List.zipWith_cons_cons, List.getD_cons_succ]
        exact ih r j (by simpa using hp) (by simpa using hr)

theorem col_scalerTransform (ps : List (ℚ × ℚ)) (m : List Row) (j : ℕ)
    (hp : j < ps.length) (hr : ∀ r ∈ m, j < r.length) :
    col j (scalerTransform ps m)
      = scaleCol (ps.getD j (0, 1)).1 (ps.getD j (0, 1)).2 (col j m) := by
  unfold col scalerTransform scaleCol
  rw [List.map_map, List.map_map]
  apply List.map_congr_left
  intro r hrm
  simp only [Function.comp_apply]
  unfold scaleRow
  rw [getD_zipWith _ ps r j hp (hr r hrm) (0, 1) 0 0]

theorem scalerFit_length (sqrtQ : ℚ → ℚ) (m : List Row) :
    (scalerFit sqrtQ m).length = numFeatures m := by
  simp [scalerFit]

theorem scalerFit_getD (sqrtQ : ℚ → ℚ) (m : List Row) (j : ℕ)
    (hj : j < numFeatures m) :
    (scalerFit sqrtQ m).getD j (0, 1)
      = (listMean (col j m), scaleOf sqrtQ (listVar (col j m))) := by
  unfold scalerFit
  rw [List.getD_eq_getElem?_getD, List.getElem?_map, List.getElem?_range hj]
  rfl

theorem col_ne_nil (j : ℕ) (m : List Row) (h : m ≠ []) : col j m ≠ [] := by
  simp [col, h]

theorem numFeatures_of_rows (m : List Row) (n : ℕ) (h : m ≠ [])
    (hrow : ∀ r ∈ m, r.length = n) : numFeatures m = n := by
  cases m with
  | nil => exact absurd rfl h
  | cons r t => exact hrow r (List.mem_cons_self r t)

/-! ### Accuracy lemmas -/

theorem countCorrect_le_length (ps ys : List ℤ) : countCorrect ps ys ≤ ys.length := by
  induction ps generalizing ys with
  | nil => simp [countCorrect]
  | cons a ps ih =>
    cases ys with
    | nil => simp [countCorrect]
    | cons b ys =>
      have h := ih ys
      simp only [countCorrect, List.zipWith_cons_cons, List.sum_cons,
        List.length_cons] at h ⊢
      split <;> omega

theorem countCorrect_replicate (c : ℤ) (ys : List ℤ) :
    countCorrect (List.replicate ys.length c) ys = ys.count c := by
  induction ys with
  | nil => rfl
  | cons a l ih =>
    simp only [List.length_cons, List.replicate_succ, countCorrect,
      List.zipWith_cons_cons, List.sum_cons, List.count_cons, beq_iff_eq] at ih ⊢
    rcases eq_or_ne c a with h | h
    · subst h
      omega
    · simp only [if_neg h, if_neg (Ne.symm h)]
      omega

theorem accuracy_nonneg (ps ys : List ℤ) : 0 ≤ accuracy ps ys := by
  unfold accuracy
  positivity

theorem accuracy_le_one (ps ys : List ℤ) (h : ys ≠ []) : accuracy ps ys ≤ 1 := by
  unfold accuracy
  have hn : (0 : ℚ) < (ys.length : ℚ) := by
    have := List.length_pos.mpr h
    exact_mod_cast this
  rw [div_le_one hn]
  exact_mod_cast countCorrect_le_length ps ys

theorem accuracy_benchmark (ys : List ℤ) :
    accuracy (benchmark_predictions ys) ys = (ys.count 1 : ℚ) / (ys.length : ℚ) := by
  unfold accuracy benchmark_predictions
  rw [countCorrect_replicate]

/-! ### Scaler-state invariance lemmas -/

theorem scaler_preserved_by_step (shuffle : List (Row × ℤ) → List (Row × ℤ))
    (d : IrisDataset) (algorithm : List Row → List ℤ → (List Row → List ℤ))
    (m : PipelineWithDataEngineering.Method) (p : PipelineWithDataEngineering) :
    (PipelineWithDataEngineering.step shuffle d algorithm m p).scaler = p.scaler := by
  cases m <;> rfl

theorem scaler_preserved_by_runMethods (shuffle : List (Row × ℤ) → List (Row × ℤ))
    (d : IrisDataset) (algorithm : List Row → List ℤ → (List Row → List ℤ))
    (ms : List PipelineWithDataEngineering.Method) (p : PipelineWithDataEngineering) :
    (PipelineWithDataEngineering.runMethods shuffle d algorithm ms p).scaler
      = p.scaler := by
  induction ms generalizing p with
  | nil => rfl
  | cons m ms ih =>
    show (PipelineWithDataEngineering.runMethods shuffle d algorithm ms
      (PipelineWithDataEngineering.step shuffle d algorithm m p)).scaler = p.scaler
    rw [ih, scaler_preserved_by_step]

/-! ### Evaluation lemmas for the fixed split sizes -/

theorem nTestRows_150 : nTestRows (65 / 100) 150 = 98 := by
  unfold nTestRows
  rw [show (⌈(65 : ℚ) / 100 * ((150 : ℕ) : ℚ)⌉ : ℤ) = 98 by
    rw [Int.ceil_eq_iff]; push_cast; norm_num]
  rfl

theorem nTestRows_6 : nTestRows (65 / 100) 6 = 4 := by
  unfold nTestRows
  rw [show (⌈(65 : ℚ) / 100 * ((6 : ℕ) : ℚ)⌉ : ℤ) = 4 by
    rw [Int.ceil_eq_iff]; push_cast; norm_num]
  rfl

theorem trainTestSplit_X_train (shuffle : List (Row × ℤ) → List (Row × ℤ))
    (X : List Row) (y : List ℤ) (ts : ℚ) :
    (trainTestSplit shuffle X y ts).X_train
      = ((shuffle (X.zip y)).drop (nTestRows ts (shuffle (X.zip y)).length)).map
          Prod.fst := rfl

theorem trainTestSplit_X_test (shuffle : List (Row × ℤ) → List (Row × ℤ))
    (X : List Row) (y : List ℤ) (ts : ℚ) :
    (trainTestSplit shuffle X y ts).X_test
      = ((shuffle (X.zip y)).take (nTestRows ts (shuffle (X.zip y)).length)).map
          Prod.fst := rfl

theorem trainTestSplit_y_train (shuffle : List (Row × ℤ) → List (Row × ℤ))
    (X : List Row) (y : List ℤ) (ts : ℚ) :
    (trainTestSplit shuffle X y ts).y_train
      = ((shuffle (X.zip y)).drop (nTestRows ts (shuffle (X.zip y)).length)).map
          Prod.snd := rfl

theorem trainTestSplit_y_test (shuffle : List (Row × ℤ) → List (Row × ℤ))
    (X : List Row) (y : List ℤ) (ts : ℚ) :
    (trainTestSplit shuffle X y ts).y_test
      = ((shuffle (X.zip y)).take (nTestRows ts (shuffle (X.zip y)).length)).map
          Prod.snd := rfl

/-! ### Claim theorems -/

/-- Claim C2: `load_dataset` is deterministic.  The four stored split pieces
produced by `load_dataset` do not depend on the pipeline state it is called
on, and a freshly constructed instance holds exactly the same pieces: the
split is a function of the dataset and the seed-fixed shuffle alone. -/
theorem load_dataset_deterministic (shuffle : List (Row × ℤ) → List (Row × ℤ))
    (d : IrisDataset) (s1 s2 : SimplePipeline) :
    (SimplePipeline.load_dataset shuffle d s1).X_train
        = (SimplePipeline.load_dataset shuffle d s2).X_train
    ∧ (SimplePipeline.load_dataset shuffle d s1).X_test
        = (SimplePipeline.load_dataset shuffle d s2).X_test
    ∧ (SimplePipeline.load_dataset shuffle d s1).y_train
        = (SimplePipeline.load_dataset shuffle d s2).y_train
    ∧ (SimplePipeline.load_dataset shuffle d s1).y_test
        = (SimplePipeline.load_dataset shuffle d s2).y_test
    ∧ (SimplePipeline.init shuffle d).X_train
        = (SimplePipeline.load_dataset shuffle d s1).X_train
    ∧ (SimplePipeline.init shuffle d).X_test
        = (SimplePipeline.load_dataset shuffle d s1).X_test
    ∧ (SimplePipeline.init shuffle d).y_train
        = (SimplePipeline.load_dataset shuffle d s1).y_train
    ∧ (SimplePipeline.init shuffle d).y_test
        = (SimplePipeline.load_dataset shuffle d s1).y_test :=
  ⟨rfl, rfl, rfl, rfl, rfl, rfl, rfl, rfl⟩

/-- Claim C4: the assertion of
`test_accuracy_compared_to_previous_version`, namely that the newer
pipeline's accuracy is at least the older one's, is false at the accuracies
recorded by the notebook's executed run (v1 = 95/98, v2 = 94/98). -/
theorem differential_test_fails_on_recorded_run :
    ¬ accuracyComparedAssertion recorded_v1_accuracy recorded_v2_accuracy := by
  unfold accuracyComparedAssertion recorded_v1_accuracy recorded_v2_accuracy
  norm_num

/-- Claim C10: `PipelineWithDataEngineering.run_pipeline` re-runs
`load_dataset` but never refits the scaler: after `run_pipeline` the scaler
still holds the parameters fitted at construction time, `load_dataset`
returns the identical split (so the construction-time training matrix and
the re-loaded one coincide), and the training data produced by
`run_pipeline` equals the re-loaded training split scaled by that split's
own fitted statistics. -/
theorem run_pipeline_never_refits (sqrtQ : ℚ → ℚ)
    (shuffle : List (Row × ℤ) → List (Row × ℤ)) (d : IrisDataset)
    (algorithm : List Row → List ℤ → (List Row → List ℤ)) :
    (PipelineWithDataEngineering.run_pipeline shuffle d algorithm
        (PipelineWithDataEngineering.construct sqrtQ shuffle d)).scaler
      = (PipelineWithDataEngineering.construct sqrtQ shuffle d).scaler
    ∧ (PipelineWithDataEngineering.construct sqrtQ shuffle d).scaler
        = scalerFit sqrtQ (trainTestSplit shuffle d.X d.y (65 / 100)).X_train
    ∧ (PipelineWithDataEngineering.load_dataset shuffle d
          (PipelineWithDataEngineering.construct sqrtQ shuffle d)).X_train
        = (PipelineWithDataEngineering.construct sqrtQ shuffle d).X_train
    ∧ (PipelineWithDataEngineering.run_pipeline shuffle d algorithm
          (PipelineWithDataEngineering.construct sqrtQ shuffle d)).X_train
        = scalerTransform
            (scalerFit sqrtQ
              (PipelineWithDataEngineering.load_dataset shuffle d
                (PipelineWithDataEngineering.construct sqrtQ shuffle d)).X_train)
            (PipelineWithDataEngineering.load_dataset shuffle d
              (PipelineWithDataEngineering.construct sqrtQ shuffle d)).X_train :=
  ⟨rfl, rfl, rfl, rfl⟩

/-- Claim C1: the scaler parameters of `PipelineWithDataEngineering` are
computed exactly once, from the training split at construction time.  After
any sequence of later method calls the stored parameters are unchanged,
`apply_scaler` transforms the stored train and test matrices with exactly
those parameters, and the overridden `predict` transforms its input with
exactly those parameters — no call ever refits. -/
theorem scaler_fit_once_every_use_reuses_it (sqrtQ : ℚ → ℚ)
    (shuffle : List (Row × ℤ) → List (Row × ℤ)) (d : IrisDataset)
    (algorithm : List Row → List ℤ → (List Row → List ℤ))
    (ms : List PipelineWithDataEngineering.Method) (input : List Row) :
    (PipelineWithDataEngineering.construct sqrtQ shuffle d).scaler
        = scalerFit sqrtQ (SimplePipeline.init shuffle d).X_train
    ∧ (PipelineWithDataEngineering.runMethods shuffle d algorithm ms
          (PipelineWithDataEngineering.construct sqrtQ shuffle d)).scaler
        = scalerFit sqrtQ (SimplePipeline.init shuffle d).X_train
    ∧ (PipelineWithDataEngineering.apply_scaler
          (PipelineWithDataEngineering.runMethods shuffle d algorithm ms
            (PipelineWithDataEngineering.construct sqrtQ shuffle d))).X_train
        = scalerTransform (scalerFit sqrtQ (SimplePipeline.init shuffle d).X_train)
            (PipelineWithDataEngineering.runMethods shuffle d algorithm ms
              (PipelineWithDataEngineering.construct sqrtQ shuffle d)).X_train
    ∧ (PipelineWithDataEngineering.apply_scaler
          (PipelineWithDataEngineering.runMethods shuffle d algorithm ms
            (PipelineWithDataEngineering.construct sqrtQ shuffle d))).X_test
        = scalerTransform (scalerFit sqrtQ (SimplePipeline.init shuffle d).X_train)
            (PipelineWithDataEngineering.runMethods shuffle d algorithm ms
              (PipelineWithDataEngineering.construct sqrtQ shuffle d)).X_test
    ∧ PipelineWithDataEngineering.predict
          (PipelineWithDataEngineering.runMethods shuffle d algorithm ms
            (PipelineWithDataEngineering.construct sqrtQ shuffle d)) input
        = (PipelineWithDataEngineering.runMethods shuffle d algorithm ms
            (PipelineWithDataEngineering.construct sqrtQ shuffle d)).model.map
            (fun mo => mo (scalerTransform
              (scalerFit sqrtQ (SimplePipeline.init shuffle d).X_train) input)) := by
  have hs : (PipelineWithDataEngineering.runMethods shuffle d algorithm ms
      (PipelineWithDataEngineering.construct sqrtQ shuffle d)).scaler
      = scalerFit sqrtQ (SimplePipeline.init shuffle d).X_train := by
    rw [scaler_preserved_by_runMethods]
    rfl
  have h3 : (PipelineWithDataEngineering.apply_scaler
      (PipelineWithDataEngineering.runMethods shuffle d algorithm ms
        (PipelineWithDataEngineering.construct sqrtQ shuffle d))).X_train
      = scalerTransform
          (PipelineWithDataEngineering.runMethods shuffle d algorithm ms
            (PipelineWithDataEngineering.construct sqrtQ shuffle d)).scaler
          (PipelineWithDataEngineering.runMethods shuffle d algorithm ms
            (PipelineWithDataEngineering.construct sqrtQ shuffle d)).X_train := rfl
  have h4 : (PipelineWithDataEngineering.apply_scaler
      (PipelineWithDataEngineering.runMethods shuffle d algorithm ms
        (PipelineWithDataEngineering.construct sqrtQ shuffle d))).X_test
      = scalerTransform
          (PipelineWithDataEngineering.runMethods shuffle d algorithm ms
            (PipelineWithDataEngineering.construct sqrtQ shuffle d)).scaler
          (PipelineWithDataEngineering.runMethods shuffle d algorithm ms
            (PipelineWithDataEngineering.construct sqrtQ shuffle d)).X_test := rfl
  have h5 : PipelineWithDataEngineering.predict
      (PipelineWithDataEngineering.runMethods shuffle d algorithm ms
        (PipelineWithDataEngineering.construct sqrtQ shuffle d)) input
      = (PipelineWithDataEngineering.runMethods shuffle d algorithm ms
          (PipelineWithDataEngineering.construct sqrtQ shuffle d)).model.map
          (fun mo => mo (scalerTransform
            (PipelineWithDataEngineering.runMethods shuffle d algorithm ms
              (PipelineWithDataEngineering.construct sqrtQ shuffle d)).scaler
            input)) := rfl
  exact ⟨rfl, hs, by rw [h3, hs], by rw [h4, hs], by rw [h5, hs]⟩

/-- Claim C8: for a trained pipeline, `get_accuracy` returns the fraction of
test rows on which the fitted classifier's prediction equals the stored test
label, a rational in `[0, 1]`. -/
theorem get_accuracy_fraction_correct (s : SimplePipeline)
    (f : List Row → List ℤ) (hm : s.model = some f) (hne : s.y_test ≠ []) :
    SimplePipeline.get_accuracy s
        = some ((countCorrect (f s.X_test) s.y_test : ℚ) / (s.y_test.length : ℚ))
    ∧ 0 ≤ accuracy (f s.X_test) s.y_test
    ∧ accuracy (f s.X_test) s.y_test ≤ 1 := by
  refine ⟨?_, accuracy_nonneg _ _, accuracy_le_one _ _ hne⟩
  unfold SimplePipeline.get_accuracy
  rw [hm]
  rfl

/-- A concrete classifier used to instantiate trained-pipeline claims. -/
def witnessModel : List Row → List ℤ := fun _ => [1]

/-- A concrete trained pipeline with a one-row test split. -/
def trainedPipeline : SimplePipeline :=
  { X_train := [], X_test := [[5]], y_train := [], y_test := [1],
    model := some witnessModel }

/-- Witness for C8 at a concrete trained pipeline. -/
theorem get_accuracy_fraction_correct_witness :
    trainedPipeline.model = some witnessModel
    ∧ trainedPipeline.y_test ≠ []
    ∧ (SimplePipeline.get_accuracy trainedPipeline
        = some ((countCorrect (witnessModel trainedPipeline.X_test)
              trainedPipeline.y_test : ℚ) / (trainedPipeline.y_test.length : ℚ))
      ∧ 0 ≤ accuracy (witnessModel trainedPipeline.X_test) trainedPipeline.y_test
      ∧ accuracy (witnessModel trainedPipeline.X_test) trainedPipeline.y_test ≤ 1) :=
  ⟨rfl, by simp [trainedPipeline],
    get_accuracy_fraction_correct trainedPipeline witnessModel rfl
      (by simp [trainedPipeline])⟩

/-- Claim C5: for a trained `SimplePipeline` whose run matches the recorded
notebook execution — 98 test rows, 95 of them predicted correctly, 32 of
them labelled 1 — the accuracy of the model's predictions on the test split
is strictly greater than the accuracy of the constant-1 benchmark predictor
on the same split. -/
theorem model_accuracy_exceeds_benchmark (s : SimplePipeline)
    (f : List Row → List ℤ) (hm : s.model = some f)
    (hlen : s.y_test.length = 98)
    (hcorrect : countCorrect (f s.X_test) s.y_test = 95)
    (hones : s.y_test.count 1 = 32) :
    SimplePipeline.predict s s.X_test = some (f s.X_test)
    ∧ accuracy (benchmark_predictions s.y_test) s.y_test
        < accuracy (f s.X_test) s.y_test := by
  constructor
  · unfold SimplePipeline.predict
    rw [hm]
    rfl
  · rw [accuracy_benchmark]
    unfold accuracy
    rw [hlen, hcorrect, hones]
    norm_num

set_option maxRecDepth 100000 in
/-- Witness for C5 at a pipeline reproducing the recorded counts. -/
theorem model_accuracy_exceeds_benchmark_witness :
    scenarioPipeline.model = some (fun _ => scenarioPreds)
    ∧ scenarioPipeline.y_test.length = 98
    ∧ countCorrect ((fun _ => scenarioPreds) scenarioPipeline.X_test)
        scenarioPipeline.y_test = 95
    ∧ scenarioPipeline.y_test.count 1 = 32
    ∧ (SimplePipeline.predict scenarioPipeline scenarioPipeline.X_test
        = some ((fun _ => scenarioPreds) scenarioPipeline.X_test)
      ∧ accuracy (benchmark_predictions scenarioPipeline.y_test)
            scenarioPipeline.y_test
          < accuracy ((fun _ => scenarioPreds) scenarioPipeline.X_test)
              scenarioPipeline.y_test) :=
  ⟨rfl, by decide, by decide, by decide,
    model_accuracy_exceeds_benchmark scenarioPipeline (fun _ => scenarioPreds)
      rfl (by decide) (by decide) (by decide)⟩

set_option maxRecDepth 100000 in
/-- Counterexample for C6: on 98 test labels consistent with the recorded
run (32 rows of class 1, so benchmark accuracy 32/98) in which class 0
occurs 33 times, the benchmark accuracy differs from (most common class
count) / (total rows): the constant-1 predictor's accuracy is 32/98 while
the most common class fraction is 33/98. -/
theorem benchmark_not_most_common_fraction :
    accuracy (benchmark_predictions testLabelsScenario) testLabelsScenario
      ≠ (mostCommonCount testLabelsScenario : ℚ)
          / (testLabelsScenario.length : ℚ) := by
  rw [accuracy_benchmark,
    show testLabelsScenario.count 1 = 32 by decide,
    show mostCommonCount testLabelsScenario = 33 by decide,
    show testLabelsScenario.length = 98 by decide]
  norm_num

/-- Claim C6 (amended): the constant-1 benchmark predictor's accuracy on a
nonempty test split equals (count of rows labelled 1) / (total rows), and it
equals (most common class count) / (total rows) exactly when class 1 is a
most common class of the split. -/
theorem benchmark_accuracy_fraction_of_ones (ys : List ℤ) (h : ys ≠ []) :
    accuracy (benchmark_predictions ys) ys = (ys.count 1 : ℚ) / (ys.length : ℚ)
    ∧ (accuracy (benchmark_predictions ys) ys
          = (mostCommonCount ys : ℚ) / (ys.length : ℚ)
        ↔ mostCommonCount ys = ys.count 1) := by
  have hb := accuracy_benchmark ys
  have hn : (ys.length : ℚ) ≠ 0 := by
    simpa using fun hc => h (List.length_eq_zero.mp hc)
  refine ⟨hb, ?_⟩
  rw [hb]
  constructor
  · intro he
    field_simp at he
    exact_mod_cast he.symm
  · intro he
    rw [he]

/-- Witness for C6 at a concrete nonempty label list. -/
theorem benchmark_accuracy_fraction_of_ones_witness :
    ([0, 1, 1] : List ℤ) ≠ []
    ∧ (accuracy (benchmark_predictions [0, 1, 1]) [0, 1, 1]
          = (([0, 1, 1] : List ℤ).count 1 : ℚ) / (([0, 1, 1] : List ℤ).length : ℚ)
      ∧ (accuracy (benchmark_predictions [0, 1, 1]) [0, 1, 1]
            = (mostCommonCount [0, 1, 1] : ℚ) / (([0, 1, 1] : List ℤ).length : ℚ)
          ↔ mostCommonCount [0, 1, 1] = ([0, 1, 1] : List ℤ).count 1)) :=
  ⟨by simp, benchmark_accuracy_fraction_of_ones [0, 1, 1] (by simp)⟩

/-- Claim C7: on a 150-row dataset, `load_dataset`'s split (test_size=0.65)
puts `⌈0.65 * 150⌉ = 98` rows into the test subset and the remaining 52 into
the training subset, and training plus test rows together are a permutation
of the dataset's rows — an exhaustive and disjoint partition. -/
theorem split_is_partition (shuffle : List (Row × ℤ) → List (Row × ℤ))
    (d : IrisDataset)
    (hperm : List.Perm (shuffle (d.X.zip d.y)) (d.X.zip d.y))
    (hX : d.X.length = 150) (hy : d.y.length = 150) :
    (trainTestSplit shuffle d.X d.y (65 / 100)).X_test.length = 98
    ∧ (trainTestSplit shuffle d.X d.y (65 / 100)).y_test.length = 98
    ∧ (trainTestSplit shuffle d.X d.y (65 / 100)).X_train.length = 52
    ∧ (trainTestSplit shuffle d.X d.y (65 / 100)).y_train.length = 52
    ∧ nTestRows (65 / 100) 150 = 98
    ∧ List.Perm
        ((trainTestSplit shuffle d.X d.y (65 / 100)).X_train.zip
            (trainTestSplit shuffle d.X d.y (65 / 100)).y_train
          ++ (trainTestSplit shuffle d.X d.y (65 / 100)).X_test.zip
              (trainTestSplit shuffle d.X d.y (65 / 100)).y_test)
        (d.X.zip d.y) := by
  have hlen : (shuffle (d.X.zip d.y)).length = 150 := by
    rw [hperm.length_eq, List.length_zip, hX, hy]
    simp
  have hnt : nTestRows (65 / 100) (shuffle (d.X.zip d.y)).length = 98 := by
    rw [hlen]
    exact nTestRows_150
  refine ⟨?_, ?_, ?_, ?_, nTestRows_150, ?_⟩
  · rw [trainTestSplit_X_test, List.length_map, List.length_take, hnt, hlen]
    omega
  · rw [trainTestSplit_y_test, List.length_map, List.length_take, hnt, hlen]
    omega
  · rw [trainTestSplit_X_train, List.length_map, List.length_drop, hnt, hlen]
  · rw [trainTestSplit_y_train, List.length_map, List.length_drop, hnt, hlen]
  · rw [trainTestSplit_X_train, trainTestSplit_y_train, trainTestSplit_X_test,
      trainTestSplit_y_test]
    have hz1 : (((shuffle (d.X.zip d.y)).drop
          (nTestRows (65 / 100) (shuffle (d.X.zip d.y)).length)).map Prod.fst).zip
        (((shuffle (d.X.zip d.y)).drop
          (nTestRows (65 / 100) (shuffle (d.X.zip d.y)).length)).map Prod.snd)
        = (shuffle (d.X.zip d.y)).drop
            (nTestRows (65 / 100) (shuffle (d.X.zip d.y)).length) := by
      have h := List.zip_unzip ((shuffle (d.X.zip d.y)).drop
        (nTestRows (65 / 100) (shuffle (d.X.zip d.y)).length))
      rwa [List.unzip_eq_map] at h
    have hz2 : (((shuffle (d.X.zip d.y)).take
          (nTestRows (65 / 100) (shuffle (d.X.zip d.y)).length)).map Prod.fst).zip
        (((shuffle (d.X.zip d.y)).take
          (nTestRows (65 / 100) (shuffle (d.X.zip d.y)).length)).map Prod.snd)
        = (shuffle (d.X.zip d.y)).take
            (nTestRows (65 / 100) (shuffle (d.X.zip d.y)).length) := by
      have h := List.zip_unzip ((shuffle (d.X.zip d.y)).take
        (nTestRows (65 / 100) (shuffle (d.X.zip d.y)).length))
      rwa [List.unzip_eq_map] at h
    rw [hz1, hz2]
    have h1 : List.Perm
        ((shuffle (d.X.zip d.y)).drop
            (nTestRows (65 / 100) (shuffle (d.X.zip d.y)).length)
          ++ (shuffle (d.X.zip d.y)).take
            (nTestRows (65 / 100) (shuffle (d.X.zip d.y)).length))
        (shuffle (d.X.zip d.y)) := by
      have h2 := @List.perm_append_comm _
        ((shuffle (d.X.zip d.y)).drop
          (nTestRows (65 / 100) (shuffle (d.X.zip d.y)).length))
        ((shuffle (d.X.zip d.y)).take
          (nTestRows (65 / 100) (shuffle (d.X.zip d.y)).length))
      have h3 := List.take_append_drop
        (nTestRows (65 / 100) (shuffle (d.X.zip d.y)).length) (shuffle (d.X.zip d.y))
      rw [h3] at h2
      exact h2
    exact h1.trans hperm

/-- Witness for C7 at a concrete 150-row dataset with the identity shuffle. -/
theorem split_is_partition_witness :
    List.Perm (idShuffle (uniformDataset.X.zip uniformDataset.y))
        (uniformDataset.X.zip uniformDataset.y)
    ∧ uniformDataset.X.length = 150
    ∧ uniformDataset.y.length = 150
    ∧ ((trainTestSplit idShuffle uniformDataset.X uniformDataset.y
          (65 / 100)).X_test.length = 98
      ∧ (trainTestSplit idShuffle uniformDataset.X uniformDataset.y
          (65 / 100)).y_test.length = 98
      ∧ (trainTestSplit idShuffle uniformDataset.X uniformDataset.y
          (65 / 100)).X_train.length = 52
      ∧ (trainTestSplit idShuffle uniformDataset.X uniformDataset.y
          (65 / 100)).y_train.length = 52
      ∧ nTestRows (65 / 100) 150 = 98
      ∧ List.Perm
          ((trainTestSplit idShuffle uniformDataset.X uniformDataset.y
                (65 / 100)).X_train.zip
              (trainTestSplit idShuffle uniformDataset.X uniformDataset.y
                (65 / 100)).y_train
            ++ (trainTestSplit idShuffle uniformDataset.X uniformDataset.y
                  (65 / 100)).X_test.zip
                (trainTestSplit idShuffle uniformDataset.X uniformDataset.y
                  (65 / 100)).y_test)
          (uniformDataset.X.zip uniformDataset.y)) :=
  ⟨List.Perm.refl _, by simp [uniformDataset], by simp [uniformDataset],
    split_is_partition idShuffle uniformDataset (List.Perm.refl _)
      (by simp [uniformDataset]) (by simp [uniformDataset])⟩

/-- Evaluation of the training split of `smallDataset` under the identity
shuffle: rows 5 and 6 remain as the training matrix. -/
theorem smallDataset_X_train :
    (SimplePipeline.init idShuffle smallDataset).X_train
      = [[0, 0, 0, 0], [2, 2, 2, 2]] := by
  show (trainTestSplit idShuffle smallDataset.X smallDataset.y (65 / 100)).X_train
      = [[0, 0, 0, 0], [2, 2, 2, 2]]
  rw [trainTestSplit_X_train]
  rw [show idShuffle (smallDataset.X.zip smallDataset.y)
      = smallDataset.X.zip smallDataset.y from rfl]
  rw [show (smallDataset.X.zip smallDataset.y).length = 6 by simp [smallDataset]]
  rw [nTestRows_6]
  simp [smallDataset]

/-- Column 0 of the scaled-down training matrix. -/
theorem smallDataset_col0 :
    col 0 ([[0, 0, 0, 0], [2, 2, 2, 2]] : List Row) = [0, 2] := by
  simp [col]

/-- Claim C3: after `apply_scaler` runs on a freshly loaded split (the state
exercised by `TestIrisDataEngineering`), every feature column `j < 4` of the
transformed training data has mean within 0.001 of 0 and standard deviation
within 0.001 of 1 — provided the raw column is nonconstant and the square
root used by the scaler is exact on its variance. -/
theorem scaled_train_mean_zero_std_one (sqrtQ : ℚ → ℚ)
    (shuffle : List (Row × ℤ) → List (Row × ℤ)) (d : IrisDataset) (j : ℕ)
    (hne : (SimplePipeline.init shuffle d).X_train ≠ [])
    (hrow : ∀ r ∈ (SimplePipeline.init shuffle d).X_train, r.length = 4)
    (hj : j < 4)
    (hv : listVar (col j (SimplePipeline.init shuffle d).X_train) ≠ 0)
    (hs1 : sqrtQ (listVar (col j (SimplePipeline.init shuffle d).X_train)) ^ 2
        = listVar (col j (SimplePipeline.init shuffle d).X_train)) :
    |listMean (col j (dataEngineeringTestState sqrtQ shuffle d).X_train) - 0|
        ≤ 1 / 1000
    ∧ ∀ s : ℚ, 0 ≤ s
        → s ^ 2 = listVar (col j (dataEngineeringTestState sqrtQ shuffle d).X_train)
        → |s - 1| ≤ 1 / 1000 := by
  have hq : (dataEngineeringTestState sqrtQ shuffle d).X_train
      = scalerTransform (scalerFit sqrtQ (SimplePipeline.init shuffle d).X_train)
          (SimplePipeline.init shuffle d).X_train := rfl
  have hnf : numFeatures (SimplePipeline.init shuffle d).X_train = 4 :=
    numFeatures_of_rows _ 4 hne hrow
  have hplen : j < (scalerFit sqrtQ (SimplePipeline.init shuffle d).X_train).length := by
    rw [scalerFit_length, hnf]
    exact hj
  have hrl : ∀ r ∈ (SimplePipeline.init shuffle d).X_train, j < r.length :=
    fun r hr => by rw [hrow r hr]; exact hj
  have hcol := col_scalerTransform
    (scalerFit sqrtQ (SimplePipeline.init shuffle d).X_train)
    (SimplePipeline.init shuffle d).X_train j hplen hrl
  have hparam := scalerFit_getD sqrtQ (SimplePipeline.init shuffle d).X_train j
    (by rw [hnf]; exact hj)
  have hcne : col j (SimplePipeline.init shuffle d).X_train ≠ [] :=
    col_ne_nil j _ hne
  have hsc : scaleOf sqrtQ (listVar (col j (SimplePipeline.init shuffle d).X_train))
      = sqrtQ (listVar (col j (SimplePipeline.init shuffle d).X_train)) := by
    unfold scaleOf
    rw [if_neg hv]
  have hmean : listMean (col j (dataEngineeringTestState sqrtQ shuffle d).X_train)
      = 0 := by
    rw [hq, hcol, hparam]
    exact listMean_standardised _ _ hcne
  have hvar : listVar (col j (dataEngineeringTestState sqrtQ shuffle d).X_train)
      = 1 := by
    rw [hq, hcol, hparam]
    show listVar (scaleCol (listMean (col j (SimplePipeline.init shuffle d).X_train))
        (scaleOf sqrtQ (listVar (col j (SimplePipeline.init shuffle d).X_train)))
        (col j (SimplePipeline.init shuffle d).X_train)) = 1
    rw [hsc]
    exact listVar_standardised _ _ hcne hv hs1
  constructor
  · rw [hmean]
    norm_num
  · intro s hs hs2
    rw [hvar] at hs2
    have h1 : (s - 1) * (s + 1) = 0 := by linear_combination hs2
    rcases mul_eq_zero.mp h1 with h2 | h2
    · have h3 : s = 1 := by linarith
      rw [h3]
      norm_num
    · have h3 : s = -1 := by linarith
      rw [h3] at hs
      norm_num at hs

/-- Witness for C3 at the identity shuffle, the exact unit square root and
the concrete `smallDataset`, column 0. -/
theorem scaled_train_mean_zero_std_one_witness :
    (SimplePipeline.init idShuffle smallDataset).X_train ≠ []
    ∧ (∀ r ∈ (SimplePipeline.init idShuffle smallDataset).X_train, r.length = 4)
    ∧ 0 < 4
    ∧ listVar (col 0 (SimplePipeline.init idShuffle smallDataset).X_train) ≠ 0
    ∧ unitSqrt (listVar (col 0 (SimplePipeline.init idShuffle smallDataset).X_train)) ^ 2
        = listVar (col 0 (SimplePipeline.init idShuffle smallDataset).X_train)
    ∧ (|listMean (col 0 (dataEngineeringTestState unitSqrt idShuffle
            smallDataset).X_train) - 0| ≤ 1 / 1000
      ∧ ∀ s : ℚ, 0 ≤ s
          → s ^ 2 = listVar (col 0 (dataEngineeringTestState unitSqrt idShuffle
              smallDataset).X_train)
          → |s - 1| ≤ 1 / 1000) :=
  ⟨by rw [smallDataset_X_train]; simp,
    by rw [smallDataset_X_train]; decide,
    by norm_num,
    by rw [smallDataset_X_train, smallDataset_col0]; norm_num [listVar, listMean],
    by rw [smallDataset_X_train, smallDataset_col0]; norm_num [unitSqrt, listVar, listMean],
    scaled_train_mean_zero_std_one unitSqrt idShuffle smallDataset 0
      (by rw [smallDataset_X_train]; simp)
      (by rw [smallDataset_X_train]; decide)
      (by norm_num)
      (by rw [smallDataset_X_train, smallDataset_col0]; norm_num [listVar, listMean])
      (by rw [smallDataset_X_train, smallDataset_col0]; norm_num [unitSqrt, listVar, listMean])⟩

/-- A concrete scaled-pipeline state for instantiating state equations. -/
def scaledPipeline : PipelineWithDataEngineering :=
  { X_train := [[1]], X_test := [[2]], y_train := [0], y_test := [0],
    model := none, scaler := [(0, 1)] }

/-- Claim C9: `apply_scaler` is not idempotent.  It overwrites the stored
matrices in place, so a second call applies the fitted `(mu, sigma)`
transform again to already-scaled data; on a column whose statistics the
scaler was fitted to, the doubly transformed column has mean `-mu / sigma`
and variance `1 / sigma ^ 2`, so the mean-0 / variance-1 property survives
the second application exactly when `mu = 0` and `sigma = 1`. -/
theorem apply_scaler_not_idempotent (p : PipelineWithDataEngineering)
    (xs : List ℚ) (mu sigma : ℚ) (hne : xs ≠ []) (hmu : listMean xs = mu)
    (hvar : listVar xs = sigma ^ 2) (hpos : 0 < sigma) :
    (PipelineWithDataEngineering.apply_scaler
        (PipelineWithDataEngineering.apply_scaler p)).X_train
      = scalerTransform p.scaler (scalerTransform p.scaler p.X_train)
    ∧ (PipelineWithDataEngineering.apply_scaler
          (PipelineWithDataEngineering.apply_scaler p)).X_test
        = scalerTransform p.scaler (scalerTransform p.scaler p.X_test)
    ∧ listMean (scaleCol mu sigma (scaleCol mu sigma xs)) = -mu / sigma
    ∧ listVar (scaleCol mu sigma (scaleCol mu sigma xs)) = 1 / sigma ^ 2
    ∧ ((listMean (scaleCol mu sigma (scaleCol mu sigma xs)) = 0
        ∧ listVar (scaleCol mu sigma (scaleCol mu sigma xs)) = 1)
      ↔ (mu = 0 ∧ sigma = 1)) := by
  have hσ : sigma ≠ 0 := ne_of_gt hpos
  have hone : scaleCol mu sigma xs ≠ [] := by simp [scaleCol, hne]
  have hm1 : listMean (scaleCol mu sigma xs) = 0 := by
    rw [listMean_scaleCol _ _ _ hne, hmu, sub_self, zero_div]
  have hv1 : listVar (scaleCol mu sigma xs) = 1 := by
    rw [listVar_scaleCol _ _ _ hne, hvar, div_self (pow_ne_zero 2 hσ)]
  have hm2 : listMean (scaleCol mu sigma (scaleCol mu sigma xs)) = -mu / sigma := by
    rw [listMean_scaleCol _ _ _ hone, hm1, zero_sub, neg_div]
  have hv2 : listVar (scaleCol mu sigma (scaleCol mu sigma xs)) = 1 / sigma ^ 2 := by
    rw [listVar_scaleCol _ _ _ hone, hv1]
  refine ⟨rfl, rfl, hm2, hv2, ?_⟩
  rw [hm2, hv2]
  constructor
  · rintro ⟨h1, h2⟩
    have hmu0 : mu = 0 := by
      rcases div_eq_zero_iff.mp h1 with h | h
      · linarith [neg_eq_zero.mp h]
      · exact absurd h (pow_ne_zero 1 hσ ∘ (by simpa using ·))
    have hsq : sigma ^ 2 = 1 := by
      field_simp at h2
      linarith
    have h4 : (sigma - 1) * (sigma + 1) = 0 := by linear_combination hsq
    rcases mul_eq_zero.mp h4 with h | h
    · exact ⟨hmu0, by linarith⟩
    · exact absurd (by linarith : sigma = -1) (by intro hcon; rw [hcon] at hpos; norm_num at hpos)
  · rintro ⟨h1, h2⟩
    rw [h1, h2]
    norm_num

/-- Witness for C9 at a concrete pipeline state and the column `[0, 2]`
with fitted mean 1 and scale 1. -/
theorem apply_scaler_not_idempotent_witness :
    ([0, 2] : List ℚ) ≠ []
    ∧ listMean [0, 2] = 1
    ∧ listVar [0, 2] = 1 ^ 2
    ∧ (0 : ℚ) < 1
    ∧ ((PipelineWithDataEngineering.apply_scaler
          (PipelineWithDataEngineering.apply_scaler scaledPipeline)).X_train
        = scalerTransform scaledPipeline.scaler
            (scalerTransform scaledPipeline.scaler scaledPipeline.X_train)
      ∧ (PipelineWithDataEngineering.apply_scaler
            (PipelineWithDataEngineering.apply_scaler scaledPipeline)).X_test
          = scalerTransform scaledPipeline.scaler
              (scalerTransform scaledPipeline.scaler scaledPipeline.X_test)
      ∧ listMean (scaleCol 1 1 (scaleCol 1 1 [0, 2])) = -1 / 1
      ∧ listVar (scaleCol 1 1 (scaleCol 1 1 [0, 2])) = 1 / 1 ^ 2
      ∧ ((listMean (scaleCol 1 1 (scaleCol 1 1 [0, 2])) = 0
          ∧ listVar (scaleCol 1 1 (scaleCol 1 1 [0, 2])) = 1)
        ↔ ((1 : ℚ) = 0 ∧ (1 : ℚ) = 1))) :=
  ⟨by simp, by norm_num [listMean], by norm_num [listVar, listMean], by norm_num,
    apply_scaler_not_idempotent scaledPipeline [0, 2] 1 1 (by simp)
      (by norm_num [listMean]) (by norm_num [listVar, listMean]) (by norm_num)⟩
